import Mathlib

/-!
Verification development for the subscription-aggregator-service repository
(Go). The Go sources are shallowly embedded: strings are lists of
characters, Go `time.Time` values are embedded as `GoTime` (every time
value occurring in this program is produced by `dates.String2Date`, hence
normalized to the first day of a month at midnight UTC), `*T` option
fields become `Option`, fallible functions return `Except`/`Option`, and
the relational store is an explicit list of rows threaded through the
storage functions. Machine integers (`int`, `int64`) are embedded as `Int`;
all arithmetic performed by the program (month counts bounded by the
four-digit years of the codec, prices from JSON) is far from the 64-bit
boundary, so no wrap-around modelling is needed.
-/

/-- Go strings, embedded as lists of characters. -/
abbrev Str := List Char

/-- Code points with Unicode property White_Space, as recognised by Go's
`unicode.IsSpace` (used by `strings.TrimSpace`). -/
def goSpaceCodes : List Nat :=
  [9, 10, 11, 12, 13, 32, 133, 160, 5760,
   8192, 8193, 8194, 8195, 8196, 8197, 8198, 8199, 8200, 8201, 8202,
   8232, 8233, 8239, 8287, 12288]

/-- `unicode.IsSpace` from Go's standard library. -/
def isGoSpace (c : Char) : Bool := goSpaceCodes.contains c.toNat

/-- `strings.TrimSpace`: drop White_Space characters from both ends. -/
def trimSpace (s : Str) : Str :=
  ((s.dropWhile isGoSpace).reverse.dropWhile isGoSpace).reverse

/-- Value of a decimal digit character. -/
def digitVal (c : Char) : Nat := c.toNat - 48

/-- The decimal digit character for `n < 10`. -/
def digitChar (n : Nat) : Char := Char.ofNat (48 + n)

/-- Hexadecimal digit recogniser (`xtob` table of github.com/google/uuid). -/
def isHexDigit (c : Char) : Bool :=
  c.isDigit || ('a' ≤ c && c ≤ 'f') || ('A' ≤ c && c ≤ 'F')

/-- The canonical 36-character `xxxxxxxx-xxxx-xxxx-xxxx-xxxxxxxxxxxx` form
accepted by `uuid.Parse`: hyphens at offsets 8, 13, 18, 23 and hexadecimal
digits everywhere else. -/
def isCanonicalUUID (s : Str) : Bool :=
  s.length = 36 &&
  (List.range 36).all fun i =>
    if i = 8 || i = 13 || i = 18 || i = 23 then s.getD i ' ' = '-'
    else isHexDigit (s.getD i ' ')

/-- ASCII lower-casing, as `strings.ToLower` acts on ASCII input. -/
def asciiLower (s : Str) : Str :=
  s.map fun c => if 'A' ≤ c && c ≤ 'Z' then Char.ofNat (c.toNat + 32) else c

/-- `uuid.Parse` of github.com/google/uuid, as a validity predicate: the
canonical form, the `urn:uuid:` prefixed form, the braced form, and the
32-digit form with no hyphens. -/
def isValidUUID (s : Str) : Bool :=
  if s.length = 36 then isCanonicalUUID s
  else if s.length = 45 then
    asciiLower (s.take 9) = ("urn:uuid:".toList) && isCanonicalUUID (s.drop 9)
  else if s.length = 38 then
    s.getD 0 ' ' = Char.ofNat 123 && s.getD 37 ' ' = Char.ofNat 125 &&
    isCanonicalUUID ((s.drop 1).take 36)
  else if s.length = 32 then s.all isHexDigit
  else false

/-- Embedding of the Go `time.Time` values occurring in this program.
Every `time.Time` the program manipulates is produced by
`dates.String2Date`, i.e. `time.Date(y, m, 1, 0, 0, 0, 0, time.UTC)` with
`1 ≤ m ≤ 12`: the location is always UTC (not modelled as data), and the
`day`/`hour`/`minute`/`second`/`nsec` fields are carried to state
normalization facts. -/
structure GoTime where
  year : Int
  month : Int
  day : Int
  hour : Int
  minute : Int
  second : Int
  nsec : Int
deriving DecidableEq, Repr

/-- Absolute month number of a normalized time value. For the
month-normalized UTC values this program produces, Go's chronological
order on `time.Time` coincides with the order of this index. -/
def GoTime.monthIndex (t : GoTime) : Int := 12 * t.year + t.month

/-- `time.Time.Before` on the month-normalized values of this program. -/
def GoTime.before (a b : GoTime) : Bool := a.monthIndex < b.monthIndex

/-- `time.Time.After` on the month-normalized values of this program. -/
def GoTime.after (a b : GoTime) : Bool := b.monthIndex < a.monthIndex

/-- `time.Date(year, month, day, hour, minute, second, nsec, time.UTC)`
applied, as in this program, only to already-normalized components. -/
def goTimeDate (year month day hour minute second nsec : Int) : GoTime :=
  ⟨year, month, day, hour, minute, second, nsec⟩

namespace dates

/-- `dates.Layout = "01-2006"`: `time.Parse` with this layout demands a
two-digit month, a literal hyphen, a four-digit year, and no extra text,
then rejects months outside 1..12. This function embeds that parse,
returning the month and year on success. -/
def timeParseLayout (s : Str) : Option (Int × Int) :=
  match s with
  | c1 :: c2 :: rest =>
    if c1.isDigit && c2.isDigit then
      let month : Int := (10 * digitVal c1 + digitVal c2 : Nat)
      match rest with
      | c3 :: ys =>
        if c3 = '-' then
          match ys with
          | [y1, y2, y3, y4] =>
            if y1.isDigit && y2.isDigit && y3.isDigit && y4.isDigit then
              let year : Int :=
                (1000 * digitVal y1 + 100 * digitVal y2 +
                  10 * digitVal y3 + digitVal y4 : Nat)
              if 1 ≤ month ∧ month ≤ 12 then some (month, year) else none
            else none
          | _ => none
        else none
      | _ => none
    else none
  | _ => none

/-- `dates.String2Date`: trim surrounding whitespace, reject empty input,
parse with layout `"01-2006"`, and normalize the result to the first day
of the month at midnight UTC. -/
def String2Date (s : Str) : Except String GoTime :=
  let t := trimSpace s
  if t = [] then .error "empty date"
  else
    match timeParseLayout t with
    | none => .error "invalid date format"
    | some (m, y) => .ok (goTimeDate y m 1 0 0 0 0)

/-- Zero-padded two-digit rendering, as Go's `Format` renders the `01`
layout field (months are always in 1..12). -/
def pad2 (n : Int) : Str := [digitChar (n.toNat / 10), digitChar (n.toNat % 10)]

/-- Zero-padded four-digit rendering, as Go's `Format` renders the `2006`
layout field for years in 0..9999. -/
def pad4 (n : Int) : Str :=
  [digitChar (n.toNat / 1000), digitChar (n.toNat / 100 % 10),
   digitChar (n.toNat / 10 % 10), digitChar (n.toNat % 10)]

/-- `t.Format("01-2006")` on the normalized values of this program. -/
def formatMMYYYY (t : GoTime) : Str := pad2 t.month ++ '-' :: pad4 t.year

end dates

/-- Follows the spec's words (§4.1/§8): the two-numeric-field MM-YYYY
pattern — a two-digit month, a hyphen, a four-digit year — with month in
1–12. Claim-side definition, to be compared with the source-side
`dates.String2Date`. -/
def specMMYYYYPattern (s : Str) : Bool :=
  match s with
  | [a, b, h, c, d, e, f] =>
    a.isDigit && b.isDigit && h = '-' &&
    c.isDigit && d.isDigit && e.isDigit && f.isDigit &&
    decide (1 ≤ 10 * digitVal a + digitVal b ∧ 10 * digitVal a + digitVal b ≤ 12)
  | _ => false

/-- `models.Subscription`: a stored row. `deleted` models whether the
gorm soft-delete marker `DeletedAt` is set (its timestamp value is never
read); `createdAt`/`updatedAt` are timestamps as abstract ticks. -/
structure Subscription where
  id : Str
  serviceName : Str
  price : Int
  userID : Str
  startDate : GoTime
  endDate : Option GoTime
  createdAt : Int
  updatedAt : Int
  deleted : Bool
deriving DecidableEq, Repr

/-- Errors surfaced by the domain service: `service.ErrValidationError`
with the wrapped field-specific message, and `service.ErrNotFound`. -/
inductive ServiceError where
  | validation (msg : String)
  | notFound
deriving DecidableEq, Repr

/-- Is this result a `ValidationError`? -/
def isValidationError (e : Except ServiceError α) : Bool :=
  match e with
  | .error (.validation _) => true
  | _ => false

namespace apiModels

/-- `apiModels.CreateSubscriptionRequest`. -/
structure CreateSubscriptionRequest where
  serviceName : Str
  price : Int
  userID : Str
  startDate : Str
  endDate : Option Str
deriving DecidableEq, Repr

/-- `CreateSubscriptionRequest.Validate`: the sequential checks of
models.go lines 25–41; `none` means no error. -/
def CreateSubscriptionRequest.validate (req : CreateSubscriptionRequest) :
    Option String :=
  if req.serviceName = [] then some "service name is required"
  else if req.price ≤ 0 then some "price must be above zero"
  else if req.userID = [] then some "user ID is required"
  else if !isValidUUID req.userID then some "user ID must be a valid UUID"
  else if req.startDate = [] then some "start date is required"
  else none

/-- `CreateSubscriptionRequest.ParseDates` (models.go lines 43–64). -/
def CreateSubscriptionRequest.parseDates (req : CreateSubscriptionRequest) :
    Except String (GoTime × Option GoTime) :=
  match dates.String2Date req.startDate with
  | .error e => .error e
  | .ok start =>
    match req.endDate with
    | none => .ok (start, none)
    | some es =>
      match dates.String2Date es with
      | .error e => .error e
      | .ok endD =>
        if endD.before start then
          .error "subscription end date cannot precede start date"
        else .ok (start, some endD)

/-- `apiModels.UpdateSubscriptionRequest`: every field optional. -/
structure UpdateSubscriptionRequest where
  serviceName : Option Str
  price : Option Int
  userID : Option Str
  startDate : Option Str
  endDate : Option Str
deriving DecidableEq, Repr

/-- `UpdateSubscriptionRequest.Validate` (models.go lines 85–108): a
present service name must not be empty after trimming, a present price
must be positive, a present user id must be a UUID, a present start date
must parse, and a present end date must parse unless it trims to the
empty string. -/
def UpdateSubscriptionRequest.validate (req : UpdateSubscriptionRequest) :
    Option String :=
  if req.serviceName.any (fun s => trimSpace s = []) then
    some "service name is required"
  else if req.price.any (fun p => p ≤ 0) then some "price must be above zero"
  else if req.userID.any (fun u => !isValidUUID u) then
    some "user ID must be a valid UUID"
  else if req.startDate.any (fun sd => !(dates.String2Date sd).toBool) then
    some "invalid start date format"
  else if req.endDate.any (fun ed =>
      trimSpace ed ≠ [] && !(dates.String2Date ed).toBool) then
    some "invalid end date format"
  else none

/-- `UpdateSubscriptionRequest.ParseDates` (models.go lines 110–140):
returns the optional parsed start, the optional parsed end, and the
clear-end flag that is set exactly when the end date field is present but
trims to the empty string. -/
def UpdateSubscriptionRequest.parseDates (req : UpdateSubscriptionRequest) :
    Except String (Option GoTime × Option GoTime × Bool) :=
  match req.startDate with
  | some sd =>
    match dates.String2Date sd with
    | .error e => .error e
    | .ok parsed => parseDatesEnd req (some parsed)
  | none => parseDatesEnd req none
where
  /-- The part of `ParseDates` from line 122 on, with `start` already
  resolved. -/
  parseDatesEnd (req : UpdateSubscriptionRequest) (start : Option GoTime) :
      Except String (Option GoTime × Option GoTime × Bool) :=
    match req.endDate with
    | none => .ok (start, none, false)
    | some ed =>
      if trimSpace ed = [] then .ok (start, none, true)
      else
        match dates.String2Date ed with
        | .error e => .error e
        | .ok parsed =>
          if start.any (fun s => parsed.before s) then
            .error "subscription end date cannot precede start date"
          else .ok (start, some parsed, false)

end apiModels

namespace storage

/-- A live row: the gorm soft-delete scope every storage query carries
(`deleted_at IS NULL`) together with the primary-key condition. -/
def liveWithID (id : Str) (r : Subscription) : Bool := r.id == id && !r.deleted

/-- `SubscriptionStorageImpl.GetSubscriptionByID`: `First` on
`id = ?` within the soft-delete scope; `none` models `ErrNotFound`. -/
def getSubscriptionByID (st : List Subscription) (id : Str) :
    Option Subscription :=
  st.find? (liveWithID id)

/-- `SubscriptionStorageImpl.UpdateSubscriptionByID`: update the columns
service_name, price, user_id, start_date, end_date, updated_at of the live
rows with the given id; the returned flag is `RowsAffected > 0` (a `false`
flag is mapped to `ErrNotFound` by the caller). -/
def updateSubscriptionByID (st : List Subscription) (sub : Subscription)
    (now : Int) : List Subscription × Bool :=
  (st.map fun r =>
    if liveWithID sub.id r then
      { r with serviceName := sub.serviceName, price := sub.price,
               userID := sub.userID, startDate := sub.startDate,
               endDate := sub.endDate, updatedAt := now }
    else r,
   st.countP (fun r => liveWithID sub.id r) ≠ 0)

/-- `SubscriptionStorageImpl.DeleteSubscriptionByID`: gorm soft delete —
set the deletion marker on the live rows with the given id; the returned
flag is `RowsAffected > 0`. -/
def deleteSubscriptionByID (st : List Subscription) (id : Str) :
    List Subscription × Bool :=
  (st.map fun r => if liveWithID id r then { r with deleted := true } else r,
   st.countP (liveWithID id) ≠ 0)

/-- SQL `LEAST` on two dates. -/
def sqlLeast (a b : GoTime) : GoTime := if a.monthIndex ≤ b.monthIndex then a else b

/-- SQL `GREATEST` on two dates. -/
def sqlGreatest (a b : GoTime) : GoTime := if b.monthIndex ≤ a.monthIndex then a else b

/-- The summand of `SubscriptionStorageImpl.TotalSubscriptionsCost`:
`((EXTRACT(YEAR FROM LEAST(COALESCE(end_date, E), E)) * 12 +
   EXTRACT(MONTH FROM LEAST(COALESCE(end_date, E), E))) -
  (EXTRACT(YEAR FROM GREATEST(start_date, S)) * 12 +
   EXTRACT(MONTH FROM GREATEST(start_date, S))) + 1) * price`. -/
def sqlCostTerm (sub : Subscription) (startDate endDate : GoTime) : Int :=
  let e := sqlLeast (sub.endDate.getD endDate) endDate
  let s := sqlGreatest sub.startDate startDate
  ((e.year * 12 + e.month) - (s.year * 12 + s.month) + 1) * sub.price

/-- The `WHERE` overlap filter of the aggregate query:
`start_date <= E AND (end_date IS NULL OR end_date >= S)`. -/
def overlapsWindow (sub : Subscription) (startDate endDate : GoTime) : Bool :=
  sub.startDate.monthIndex ≤ endDate.monthIndex &&
  match sub.endDate with
  | none => true
  | some e => startDate.monthIndex ≤ e.monthIndex

/-- `SubscriptionStorageImpl.TotalSubscriptionsCost` over the rows already
matching the user/service filters: apply the overlap filter and sum the
`sqlCostTerm` (`COALESCE(SUM(..), 0)` makes the empty sum 0). -/
def TotalSubscriptionsCost (subs : List Subscription)
    (startDate endDate : GoTime) : Int :=
  ((subs.filter fun sub => overlapsWindow sub startDate endDate).map
    fun sub => sqlCostTerm sub startDate endDate).sum

end storage

namespace service

/-- `service.calculateSubscriptionCost` (internal/logger/logger.go lines
374–395): clamp the record interval to the query window using
`After(startDate)` / `Before(endDate)` and bill the inclusive month count
times the price. -/
def calculateSubscriptionCost (sub : Subscription)
    (startDate endDate : GoTime) : Int :=
  let start := if sub.startDate.after startDate then sub.startDate else startDate
  let endD :=
    match sub.endDate with
    | some se => if se.before endDate then se else endDate
    | none => endDate
  if endD.before start then 0
  else
    let months := (endD.year - start.year) * 12 + (endD.month - start.month) + 1
    if months < 0 then 0 else months * sub.price

/-- The application-tier total of `SubscriptionServiceImpl.
TotalSubscriptionsCost` (logger.go lines 365–368): sum
`calculateSubscriptionCost` over every listed record, with no overlap
pre-selection. -/
def totalCostList (subs : List Subscription) (startDate endDate : GoTime) : Int :=
  (subs.map fun sub => calculateSubscriptionCost sub startDate endDate).sum

/-- `SubscriptionServiceImpl.CreateSubscription` after the storage write
succeeds: validate, parse the dates, and build the persisted record.
`newID` stands for `uuid.New()` and `now` for `time.Now()`. -/
def createSubscription (req : apiModels.CreateSubscriptionRequest)
    (newID : Str) (now : Int) : Except ServiceError Subscription :=
  match req.validate with
  | some m => .error (.validation m)
  | none =>
    match req.parseDates with
    | .error m => .error (.validation m)
    | .ok (start, endD) =>
      .ok { id := newID, serviceName := req.serviceName, price := req.price,
            userID := req.userID, startDate := start, endDate := endD,
            createdAt := now, updatedAt := now, deleted := false }

/-- `end_date != nil && end_date.Before(start)`. -/
def optBefore (o : Option GoTime) (d : GoTime) : Bool :=
  match o with
  | some e => e.before d
  | none => false

/-- The pure part of `SubscriptionServiceImpl.UpdateSubscriptionByID`
(logger.go lines 209–253) between the storage read and the storage write:
validate the payload, parse its dates, merge them into the current record
(the clear-end flag wins over a parsed end; an absent field keeps the
current value), reject a merged end date before the merged start date, and
produce the merged record. -/
def updateMerge (current : Subscription)
    (req : apiModels.UpdateSubscriptionRequest) (now : Int) :
    Except String Subscription :=
  match req.validate with
  | some m => .error m
  | none =>
    match req.parseDates with
    | .error m => .error m
    | .ok (reqStart, reqEnd, clearEnd) =>
      let startDate :=
        match reqStart with
        | some d => d
        | none => current.startDate
      let endDate :=
        if clearEnd then none
        else
          match reqEnd with
          | some e => some e
          | none => current.endDate
      if optBefore endDate startDate then
        .error "subscription end date cannot precede start date"
      else
        .ok { current with
              serviceName :=
                match req.serviceName with
                | some s => s
                | none => current.serviceName,
              price :=
                match req.price with
                | some p => p
                | none => current.price,
              startDate := startDate, endDate := endDate, updatedAt := now }

/-- `SubscriptionServiceImpl.UpdateSubscriptionByID` (logger.go lines
202–267) with the storage state explicit: parse the id, validate the
payload, read the current record, merge and re-validate (`updateMerge`
re-enters a validation that already returned nil, so the branch is the
straight-line Go code), and only then perform the single storage write.
Returns the possibly-updated state with the result. -/
def updateSubscriptionByID (st : List Subscription) (idStr : Str)
    (req : apiModels.UpdateSubscriptionRequest) (now : Int) :
    List Subscription × Except ServiceError Subscription :=
  if !isValidUUID idStr then
    (st, .error (.validation "invalid subscription UUID"))
  else
    match req.validate with
    | some m => (st, .error (.validation m))
    | none =>
      match storage.getSubscriptionByID st idStr with
      | none => (st, .error .notFound)
      | some current =>
        match updateMerge current req now with
        | .error m => (st, .error (.validation m))
        | .ok merged =>
          let r := storage.updateSubscriptionByID st merged now
          if r.2 then (r.1, .ok merged) else (r.1, .error .notFound)

/-- `SubscriptionServiceImpl.DeleteSubscriptionByID` (logger.go lines
269–288) with the storage state explicit: parse the id, soft-delete, and
translate a zero-rows-affected outcome into `NotFound`. -/
def deleteSubscriptionByID (st : List Subscription) (idStr : Str) :
    List Subscription × Except ServiceError Unit :=
  if !isValidUUID idStr then
    (st, .error (.validation "invalid subscription UUID"))
  else
    let r := storage.deleteSubscriptionByID st idStr
    if r.2 then (r.1, .ok ()) else (r.1, .error .notFound)

end service

namespace Snapshot002

/-- The `calculateSubscriptionCost` variant of the near-duplicate service
snapshot (src/unnamed/part_002 lines 220–241): identical to
`service.calculateSubscriptionCost` except that the record start date is
compared against the query window END (`sub.StartDate.After(endDate)`)
when computing the effective start. -/
def calculateSubscriptionCost (sub : Subscription)
    (startDate endDate : GoTime) : Int :=
  let start := if sub.startDate.after endDate then sub.startDate else startDate
  let endD :=
    match sub.endDate with
    | some se => if se.before endDate then se else endDate
    | none => endDate
  if endD.before start then 0
  else
    let months := (endD.year - start.year) * 12 + (endD.month - start.month) + 1
    if months < 0 then 0 else months * sub.price

end Snapshot002

/-- Follows the spec's words (§4.2 step 2): effective start =
max(record.start_date, query.start_date); effective end =
min(record.end_date if present else query.end_date, query.end_date); 0
when the effective end is before the effective start, and otherwise
`((yearEnd - yearStart) * 12 + (monthEnd - monthStart) + 1) * price`.
Claim-side definition, to be compared with the source-side cost
functions. -/
def spec42EffectiveCost (sub : Subscription) (startDate endDate : GoTime) : Int :=
  let effStart :=
    if sub.startDate.monthIndex ≤ startDate.monthIndex then startDate
    else sub.startDate
  let effEnd :=
    match sub.endDate with
    | some e => if e.monthIndex ≤ endDate.monthIndex then e else endDate
    | none => endDate
  if effEnd.monthIndex < effStart.monthIndex then 0
  else
    ((effEnd.year - effStart.year) * 12 +
      (effEnd.month - effStart.month) + 1) * sub.price

/-- Proof-side normal form of the billing computation: the inclusive month
count from index `a` to index `b`, clamped to 0, times the price `p`. -/
def costOf (a b p : Int) : Int := if b < a then 0 else (b - a + 1) * p

/-- Proof-side normal form of the effective end bound: the month index of
`min(record.end_date if present else E, E)`. -/
def effEndIdx (sub : Subscription) (E : GoTime) : Int :=
  match sub.endDate with
  | some se => min se.monthIndex E.monthIndex
  | none => E.monthIndex

theorem costOf_nonneg {a b p : Int} (hp : 0 ≤ p) : 0 ≤ costOf a b p := by
  unfold costOf
  split_ifs with h
  · exact le_refl 0
  · exact mul_nonneg (by omega) hp

theorem costOf_mono {a1 a2 b1 b2 p : Int} (ha : a2 ≤ a1) (hb : b1 ≤ b2)
    (hp : 0 ≤ p) : costOf a1 b1 p ≤ costOf a2 b2 p := by
  unfold costOf
  split_ifs with h1 h2 h2
  · exact le_refl 0
  · exact mul_nonneg (by omega) hp
  · omega
  · exact mul_le_mul_of_nonneg_right (by omega) hp

theorem calc_eq_costOf (sub : Subscription) (S E : GoTime) :
    service.calculateSubscriptionCost sub S E =
      costOf (max sub.startDate.monthIndex S.monthIndex) (effEndIdx sub E)
        sub.price := by
  unfold service.calculateSubscriptionCost costOf effEndIdx
  unfold GoTime.before GoTime.after GoTime.monthIndex
  rcases sub.endDate with _ | se <;>
    simp only [GoTime.monthIndex] <;>
    split_ifs <;>
    simp only [decide_eq_true_eq, not_lt] at * <;>
    first
      | rfl
      | (exfalso; omega)
      | (refine congrArg (fun m => m * sub.price) ?_; omega)

theorem snapshot_eq_costOf (sub : Subscription) (S E : GoTime) :
    Snapshot002.calculateSubscriptionCost sub S E =
      costOf
        (if E.monthIndex < sub.startDate.monthIndex then
          sub.startDate.monthIndex
         else S.monthIndex)
        (effEndIdx sub E) sub.price := by
  unfold Snapshot002.calculateSubscriptionCost costOf effEndIdx
  unfold GoTime.before GoTime.after GoTime.monthIndex
  rcases sub.endDate with _ | se <;>
    simp only [GoTime.monthIndex] <;>
    split_ifs <;>
    simp only [decide_eq_true_eq, not_lt] at * <;>
    first
      | rfl
      | (exfalso; omega)
      | (refine congrArg (fun m => m * sub.price) ?_; omega)

theorem spec42_eq_costOf (sub : Subscription) (S E : GoTime) :
    spec42EffectiveCost sub S E =
      costOf (max sub.startDate.monthIndex S.monthIndex) (effEndIdx sub E)
        sub.price := by
  unfold spec42EffectiveCost costOf effEndIdx
  unfold GoTime.monthIndex
  rcases sub.endDate with _ | se <;>
    simp only [GoTime.monthIndex, max_def, min_def] <;>
    split_ifs <;>
    simp only [decide_eq_true_eq, not_lt] at * <;>
    first
      | rfl
      | (exfalso; omega)
      | (refine congrArg (fun m => m * sub.price) ?_; omega)

theorem sqlCostTerm_eq (sub : Subscription) (S E : GoTime) :
    storage.sqlCostTerm sub S E =
      (effEndIdx sub E - max sub.startDate.monthIndex S.monthIndex + 1) *
        sub.price := by
  unfold storage.sqlCostTerm storage.sqlLeast storage.sqlGreatest effEndIdx
  unfold GoTime.monthIndex
  rcases sub.endDate with _ | se <;>
    simp only [Option.getD, GoTime.monthIndex, max_def, min_def] <;>
    split_ifs <;>
    simp only [decide_eq_true_eq, not_lt] at * <;>
    first
      | rfl
      | (exfalso; omega)
      | (refine congrArg (fun m => m * sub.price) ?_; omega)

/-- Per-record agreement of the SQL aggregate with the application-tier
cost: under a valid window and the stored-record invariant
start ≤ end, a record passing the overlap filter contributes the same
amount on both sides, and a record failing it contributes 0 to both. -/
theorem sql_filtered_term_eq_calc (sub : Subscription) (S E : GoTime)
    (hw : S.monthIndex ≤ E.monthIndex)
    (hinv : ∀ e, sub.endDate = some e →
      sub.startDate.monthIndex ≤ e.monthIndex) :
    (if storage.overlapsWindow sub S E then storage.sqlCostTerm sub S E
     else 0) =
      service.calculateSubscriptionCost sub S E := by
  rw [calc_eq_costOf, sqlCostTerm_eq]
  have h1 : storage.overlapsWindow sub S E = true →
      max sub.startDate.monthIndex S.monthIndex ≤ effEndIdx sub E := by
    unfold storage.overlapsWindow effEndIdx
    rcases h : sub.endDate with _ | se
    · simp only [Bool.and_true, decide_eq_true_eq]
      omega
    · have hse := hinv se h
      simp only [Bool.and_eq_true, decide_eq_true_eq, and_imp]
      omega
  have h2 : storage.overlapsWindow sub S E = false →
      effEndIdx sub E < max sub.startDate.monthIndex S.monthIndex := by
    unfold storage.overlapsWindow effEndIdx
    rcases h : sub.endDate with _ | se
    · simp only [Bool.and_true, decide_eq_false_iff_not, decide_eq_true_eq]
      omega
    · simp only [Bool.and_eq_false_iff, decide_eq_false_iff_not]
      omega
  by_cases h : storage.overlapsWindow sub S E = true
  · rw [if_pos h]
    unfold costOf
    rw [if_neg (not_lt.2 (h1 h))]
  · rw [if_neg h]
    unfold costOf
    rw [if_pos (h2 (Bool.eq_false_iff.mpr h))]

namespace Snapshot002

/-- The application-tier total of the snapshot's `TotalSubscriptionsCost`
(src/unnamed/part_002 lines 212–215). -/
def totalCostList (subs : List Subscription) (startDate endDate : GoTime) : Int :=
  (subs.map fun sub => calculateSubscriptionCost sub startDate endDate).sum

end Snapshot002

theorem effEndIdx_le (sub : Subscription) (E : GoTime) :
    effEndIdx sub E ≤ E.monthIndex := by
  unfold effEndIdx
  rcases sub.endDate with _ | se
  · exact le_refl _
  · exact min_le_right _ _

theorem effEndIdx_mono (sub : Subscription) {E1 E2 : GoTime}
    (hE : E1.monthIndex ≤ E2.monthIndex) :
    effEndIdx sub E1 ≤ effEndIdx sub E2 := by
  unfold effEndIdx
  rcases sub.endDate with _ | se
  · exact hE
  · exact min_le_min (le_refl _) hE

theorem calc_mono (sub : Subscription) {S1 E1 S2 E2 : GoTime}
    (hS : S2.monthIndex ≤ S1.monthIndex) (hE : E1.monthIndex ≤ E2.monthIndex)
    (hp : 0 ≤ sub.price) :
    service.calculateSubscriptionCost sub S1 E1 ≤
      service.calculateSubscriptionCost sub S2 E2 := by
  rw [calc_eq_costOf, calc_eq_costOf]
  exact costOf_mono (max_le_max (le_refl _) hS) (effEndIdx_mono sub hE) hp

theorem costOf_eq_zero {a b p : Int} (h : b < a) : costOf a b p = 0 := by
  unfold costOf
  rw [if_pos h]

theorem snapshot_calc_mono (sub : Subscription) {S1 E1 S2 E2 : GoTime}
    (hS : S2.monthIndex ≤ S1.monthIndex) (hE : E1.monthIndex ≤ E2.monthIndex)
    (hp : 0 ≤ sub.price) :
    Snapshot002.calculateSubscriptionCost sub S1 E1 ≤
      Snapshot002.calculateSubscriptionCost sub S2 E2 := by
  rw [snapshot_eq_costOf, snapshot_eq_costOf]
  by_cases h2 : E2.monthIndex < sub.startDate.monthIndex
  · have h1 : E1.monthIndex < sub.startDate.monthIndex := by omega
    rw [if_pos h1, if_pos h2]
    exact costOf_mono (le_refl _) (effEndIdx_mono sub hE) hp
  · by_cases h1 : E1.monthIndex < sub.startDate.monthIndex
    · rw [if_pos h1, if_neg h2]
      rw [costOf_eq_zero (by have := effEndIdx_le sub E1; omega)]
      exact costOf_nonneg hp
    · rw [if_neg h1, if_neg h2]
      exact costOf_mono hS (effEndIdx_mono sub hE) hp

theorem totalCostList_mono (subs : List Subscription) {S1 E1 S2 E2 : GoTime}
    (hS : S2.monthIndex ≤ S1.monthIndex) (hE : E1.monthIndex ≤ E2.monthIndex)
    (hp : ∀ sub ∈ subs, 0 < sub.price) :
    service.totalCostList subs S1 E1 ≤ service.totalCostList subs S2 E2 := by
  unfold service.totalCostList
  induction subs with
  | nil => exact le_refl _
  | cons sub rest ih =>
    simp only [List.map_cons, List.sum_cons]
    have hsub := calc_mono sub hS hE (le_of_lt (hp sub (by simp)))
    have hrest := ih (fun s hs => hp s (by simp [hs]))
    exact add_le_add hsub hrest

theorem snapshot_totalCostList_mono (subs : List Subscription)
    {S1 E1 S2 E2 : GoTime}
    (hS : S2.monthIndex ≤ S1.monthIndex) (hE : E1.monthIndex ≤ E2.monthIndex)
    (hp : ∀ sub ∈ subs, 0 < sub.price) :
    Snapshot002.totalCostList subs S1 E1 ≤
      Snapshot002.totalCostList subs S2 E2 := by
  unfold Snapshot002.totalCostList
  induction subs with
  | nil => exact le_refl _
  | cons sub rest ih =>
    simp only [List.map_cons, List.sum_cons]
    have hsub := snapshot_calc_mono sub hS hE (le_of_lt (hp sub (by simp)))
    have hrest := ih (fun s hs => hp s (by simp [hs]))
    exact add_le_add hsub hrest

/-- A well-formed user id used in concrete scenarios. -/
def sampleUserID : Str := "550e8400-e29b-41d4-a716-446655440000".toList

/-- Another well-formed id used in concrete scenarios. -/
def sampleID : Str := "123e4567-e89b-12d3-a456-426614174000".toList

/-- January 2024 as a normalized month value. -/
def jan2024 : GoTime := ⟨2024, 1, 1, 0, 0, 0, 0⟩

/-- June 2024 as a normalized month value. -/
def jun2024 : GoTime := ⟨2024, 6, 1, 0, 0, 0, 0⟩

/-- December 2024 as a normalized month value. -/
def dec2024 : GoTime := ⟨2024, 12, 1, 0, 0, 0, 0⟩

/-- The spec §8 open-ended scenario record: start 06-2024, no end date,
price 200. -/
def openEndedJunSub : Subscription :=
  { id := sampleID, serviceName := "Spotify".toList, price := 200,
    userID := sampleUserID, startDate := jun2024, endDate := none,
    createdAt := 0, updatedAt := 0, deleted := false }

/-- The spec §8 bounded scenario record: start 01-2024, end 12-2024,
price 100. -/
def boundedYearSub : Subscription :=
  { id := sampleID, serviceName := "Netflix".toList, price := 100,
    userID := sampleUserID, startDate := jan2024, endDate := some dec2024,
    createdAt := 0, updatedAt := 0, deleted := false }

/-- C1: the claim's §4.2 intersection formula (effective start
`max(record.start_date, windowStart)`) is violated by the
`calculateSubscriptionCost` copy at src/unnamed/part_002, which compares
the record start against the window END: on the record with start
06-2024, no end date and price 200 over the window 01-2024..12-2024 it
returns 2400, while the §4.2 formula — and the copy at
internal/logger/logger.go, which agrees with the formula on every input —
gives 1400 (7 months × 200); the repository's own end-to-end test asserts
1400 for this record. -/
theorem C1_part002_cost_deviates_from_spec_formula :
    Snapshot002.calculateSubscriptionCost openEndedJunSub jan2024 dec2024 = 2400 ∧
    spec42EffectiveCost openEndedJunSub jan2024 dec2024 = 1400 ∧
    service.calculateSubscriptionCost openEndedJunSub jan2024 dec2024 = 1400 ∧
    ∀ (sub : Subscription) (S E : GoTime),
      service.calculateSubscriptionCost sub S E = spec42EffectiveCost sub S E := by
  refine ⟨by decide, by decide, by decide, fun sub S E => ?_⟩
  rw [calc_eq_costOf, spec42_eq_costOf]

/-- C2: over any finite set of stored rows (which satisfy the persisted
invariant start ≤ end) and any valid query window, the set-based SQL
aggregate of `storage.TotalSubscriptionsCost` — overlap filter plus the
GREATEST/LEAST inclusive month-count sum — returns the same total as the
application-tier path of `service.TotalSubscriptionsCost`, which sums
`calculateSubscriptionCost` over all rows with no overlap pre-selection. -/
theorem C2_sql_total_eq_service_total (subs : List Subscription)
    (S E : GoTime) (hw : S.monthIndex ≤ E.monthIndex)
    (hinv : ∀ sub ∈ subs, ∀ e, sub.endDate = some e →
      sub.startDate.monthIndex ≤ e.monthIndex) :
    storage.TotalSubscriptionsCost subs S E = service.totalCostList subs S E := by
  unfold storage.TotalSubscriptionsCost service.totalCostList
  induction subs with
  | nil => rfl
  | cons sub rest ih =>
    have hsub := sql_filtered_term_eq_calc sub S E hw
      (hinv sub (by simp))
    have hrest := ih (fun s hs e he => hinv s (by simp [hs]) e he)
    by_cases h : storage.overlapsWindow sub S E = true
    · rw [List.filter_cons, if_pos h, List.map_cons, List.sum_cons,
        List.map_cons, List.sum_cons, hrest, ← hsub, if_pos h]
    · rw [List.filter_cons, if_neg h, List.map_cons, List.sum_cons, hrest,
        ← hsub, if_neg h, zero_add]

/-- Witness for C2: the two §8 scenario records over the window
01-2024..12-2024, where both paths give 1200 + 1400 = 2600. -/
theorem C2_sql_total_eq_service_total_witness :
    storage.TotalSubscriptionsCost [boundedYearSub, openEndedJunSub]
        jan2024 dec2024 =
      service.totalCostList [boundedYearSub, openEndedJunSub] jan2024 dec2024 ∧
    service.totalCostList [boundedYearSub, openEndedJunSub] jan2024 dec2024
      = 2600 :=
  ⟨C2_sql_total_eq_service_total [boundedYearSub, openEndedJunSub]
      jan2024 dec2024 (by decide) (by decide),
   by decide⟩

/-- C5: for a fixed set of stored records (positive prices) and valid
query windows W1 ⊆ W2, the computed total for W2 is at least the total
for W1 — for the application-tier summation actually used by the service
(logger.go) and likewise for the near-duplicate snapshot's summation
(src/unnamed/part_002). -/
theorem C5_total_cost_monotone_in_window (subs : List Subscription)
    (S1 E1 S2 E2 : GoTime)
    (hS : S2.monthIndex ≤ S1.monthIndex) (hE : E1.monthIndex ≤ E2.monthIndex)
    (hvalid : S1.monthIndex ≤ E1.monthIndex)
    (hp : ∀ sub ∈ subs, 0 < sub.price) :
    service.totalCostList subs S1 E1 ≤ service.totalCostList subs S2 E2 ∧
    Snapshot002.totalCostList subs S1 E1 ≤
      Snapshot002.totalCostList subs S2 E2 :=
  ⟨totalCostList_mono subs hS hE hp, snapshot_totalCostList_mono subs hS hE hp⟩

/-- Witness for C5: widening 01-2024..06-2024 to 01-2024..12-2024 over the
two §8 scenario records. -/
theorem C5_total_cost_monotone_in_window_witness :
    service.totalCostList [boundedYearSub, openEndedJunSub] jan2024 jun2024 ≤
      service.totalCostList [boundedYearSub, openEndedJunSub] jan2024 dec2024 ∧
    Snapshot002.totalCostList [boundedYearSub, openEndedJunSub] jan2024 jun2024 ≤
      Snapshot002.totalCostList [boundedYearSub, openEndedJunSub] jan2024
        dec2024 :=
  C5_total_cost_monotone_in_window [boundedYearSub, openEndedJunSub]
    jan2024 jun2024 jan2024 dec2024 (by decide) (by decide) (by decide)
    (by decide)

theorem parseDatesEnd_end_none {req : apiModels.UpdateSubscriptionRequest}
    (h : req.endDate = none) (start : Option GoTime) :
    apiModels.UpdateSubscriptionRequest.parseDates.parseDatesEnd req start =
      .ok (start, none, false) := by
  unfold apiModels.UpdateSubscriptionRequest.parseDates.parseDatesEnd
  rw [h]

theorem parseDatesEnd_end_clear {req : apiModels.UpdateSubscriptionRequest}
    {s : Str} (h : req.endDate = some s) (ht : trimSpace s = [])
    (start : Option GoTime) :
    apiModels.UpdateSubscriptionRequest.parseDates.parseDatesEnd req start =
      .ok (start, none, true) := by
  unfold apiModels.UpdateSubscriptionRequest.parseDates.parseDatesEnd
  rw [h]
  simp only [ht, if_pos]

theorem parseDates_ok_components {req : apiModels.UpdateSubscriptionRequest}
    {res : Option GoTime × Option GoTime × Bool}
    (hp : req.parseDates = .ok res) :
    (req.endDate = none → res.2.1 = none ∧ res.2.2 = false) ∧
    (∀ s, req.endDate = some s → trimSpace s = [] →
      res.2.1 = none ∧ res.2.2 = true) ∧
    (∀ s d, req.endDate = some s → dates.String2Date s = .ok d →
      res.2.1 = some d ∧ res.2.2 = false) := by
  unfold apiModels.UpdateSubscriptionRequest.parseDates at hp
  have main : ∀ (start : Option GoTime),
      apiModels.UpdateSubscriptionRequest.parseDates.parseDatesEnd req start =
        .ok res →
      (req.endDate = none → res.2.1 = none ∧ res.2.2 = false) ∧
      (∀ s, req.endDate = some s → trimSpace s = [] →
        res.2.1 = none ∧ res.2.2 = true) ∧
      (∀ s d, req.endDate = some s → dates.String2Date s = .ok d →
        res.2.1 = some d ∧ res.2.2 = false) := by
    intro start h
    unfold apiModels.UpdateSubscriptionRequest.parseDates.parseDatesEnd at h
    refine ⟨fun hn => ?_, fun s hs htrim => ?_, fun s d hs hd => ?_⟩
    · rw [hn] at h
      cases h
      exact ⟨rfl, rfl⟩
    · rw [hs] at h
      dsimp only at h
      rw [if_pos htrim] at h
      cases h
      exact ⟨rfl, rfl⟩
    · rw [hs] at h
      dsimp only at h
      have htrim : ¬(trimSpace s = []) := by
        intro ht
        unfold dates.String2Date at hd
        rw [if_pos ht] at hd
        cases hd
      rw [if_neg htrim, hd] at h
      dsimp only at h
      by_cases hb : start.any (fun s0 => d.before s0) = true
      · rw [if_pos hb] at h
        cases h
      · rw [if_neg hb] at h
        cases h
        exact ⟨rfl, rfl⟩
  cases hsd : req.startDate with
  | none =>
    rw [hsd] at hp
    exact main none hp
  | some sd =>
    rw [hsd] at hp
    dsimp only at hp
    cases hparse : dates.String2Date sd with
    | error e =>
      rw [hparse] at hp
      cases hp
    | ok parsed =>
      rw [hparse] at hp
      exact main (some parsed) hp

theorem updateMerge_ok_shape {cur : Subscription}
    {req : apiModels.UpdateSubscriptionRequest} {now : Int} {r : Subscription}
    (h : service.updateMerge cur req now = .ok r) :
    ∃ res : Option GoTime × Option GoTime × Bool,
      req.parseDates = .ok res ∧
      req.validate = none ∧
      (service.optBefore
        (if res.2.2 then none else
          match res.2.1 with
          | some e => some e
          | none => cur.endDate)
        (match res.1 with
          | some d => d
          | none => cur.startDate) = false) ∧
      r = { cur with
            serviceName :=
              match req.serviceName with
              | some s => s
              | none => cur.serviceName,
            price :=
              match req.price with
              | some p => p
              | none => cur.price,
            startDate :=
              match res.1 with
              | some d => d
              | none => cur.startDate,
            endDate :=
              if res.2.2 then none else
                match res.2.1 with
                | some e => some e
                | none => cur.endDate,
            updatedAt := now } := by
  unfold service.updateMerge at h
  cases hv : req.validate with
  | some m => rw [hv] at h; cases h
  | none =>
    rw [hv] at h
    dsimp only at h
    cases hp : req.parseDates with
    | error m => rw [hp] at h; cases h
    | ok res =>
      obtain ⟨rs, re, ce⟩ := res
      rw [hp] at h
      dsimp only at h
      split at h
      · rename_i hce
        split at h
        · cases h
        · rename_i hb
          cases h
          refine ⟨(rs, re, ce), rfl, rfl, ?_, ?_⟩
          · rw [if_pos hce]
            exact Bool.eq_false_iff.mpr hb
          · rw [if_pos hce]
      · rename_i hce
        split at h
        · cases h
        · rename_i hb
          cases h
          refine ⟨(rs, re, ce), rfl, rfl, ?_, ?_⟩
          · rw [if_neg hce]
            exact Bool.eq_false_iff.mpr hb
          · rw [if_neg hce]

theorem createValidate_none_price
    {req : apiModels.CreateSubscriptionRequest}
    (hv : req.validate = none) : 0 < req.price := by
  unfold apiModels.CreateSubscriptionRequest.validate at hv
  split_ifs at hv with h1 h2 <;> first | omega | cases hv

theorem updateValidate_none_price
    {req : apiModels.UpdateSubscriptionRequest}
    (hv : req.validate = none) : ∀ p, req.price = some p → 0 < p := by
  intro p hp
  unfold apiModels.UpdateSubscriptionRequest.validate at hv
  split_ifs at hv with h1 h2 <;> first
    | (rw [hp] at h2
       simp only [Option.any_some, decide_eq_true_eq] at h2
       omega)
    | cases hv

theorem createParse_ok_order {req : apiModels.CreateSubscriptionRequest}
    {start : GoTime} {endD : Option GoTime}
    (h : req.parseDates = .ok (start, endD)) :
    ∀ e, endD = some e → start.monthIndex ≤ e.monthIndex := by
  intro e he
  unfold apiModels.CreateSubscriptionRequest.parseDates at h
  cases hs : dates.String2Date req.startDate with
  | error m => rw [hs] at h; cases h
  | ok st =>
    rw [hs] at h
    dsimp only at h
    cases hed : req.endDate with
    | none =>
      rw [hed] at h
      dsimp only at h
      cases h
      cases he
    | some es =>
      rw [hed] at h
      dsimp only at h
      cases hpe : dates.String2Date es with
      | error m => rw [hpe] at h; cases h
      | ok ed =>
        rw [hpe] at h
        dsimp only at h
        split at h
        · cases h
        · rename_i hb
          cases h
          cases he
          simp only [GoTime.before, decide_eq_true_eq, not_lt] at hb
          exact hb

/-- C4: every record produced by a successful `CreateSubscription` has a
positive price and an end date (when present) no earlier than its start
date, and every record produced by a successful merge in
`UpdateSubscriptionByID` — starting from a stored record with positive
price — again satisfies both invariants: the start ≤ end check is made on
the merged result. -/
theorem C4_persisted_record_invariants :
    (∀ (req : apiModels.CreateSubscriptionRequest) (newID : Str) (now : Int)
        (sub : Subscription),
      service.createSubscription req newID now = .ok sub →
      0 < sub.price ∧
      ∀ e, sub.endDate = some e → sub.startDate.monthIndex ≤ e.monthIndex) ∧
    (∀ (cur : Subscription) (req : apiModels.UpdateSubscriptionRequest)
        (now : Int) (sub : Subscription),
      0 < cur.price →
      service.updateMerge cur req now = .ok sub →
      0 < sub.price ∧
      ∀ e, sub.endDate = some e → sub.startDate.monthIndex ≤ e.monthIndex) := by
  constructor
  · intro req newID now sub h
    unfold service.createSubscription at h
    cases hv : req.validate with
    | some m => rw [hv] at h; cases h
    | none =>
      rw [hv] at h
      dsimp only at h
      cases hp : req.parseDates with
      | error m => rw [hp] at h; cases h
      | ok res =>
        obtain ⟨start, endD⟩ := res
        rw [hp] at h
        dsimp only at h
        cases h
        exact ⟨createValidate_none_price hv, createParse_ok_order hp⟩
  · intro cur req now sub hcur h
    obtain ⟨res, hp, hv, hopt, hr⟩ := updateMerge_ok_shape h
    constructor
    · rw [hr]
      cases hq : req.price with
      | none => exact hcur
      | some p => exact updateValidate_none_price hv p hq
    · intro e he
      rw [hr] at he
      dsimp only at he
      rw [hr]
      dsimp only
      rw [he] at hopt
      unfold service.optBefore at hopt
      dsimp only at hopt
      simp only [GoTime.before, decide_eq_false_iff_not, not_lt] at hopt
      exact hopt

/-- C3: `UpdateSubscriptionByID` distinguishes the three end-date request
states exactly as specified: an absent field keeps the current end date, a
present valid MM-YYYY string sets the merged end date to its parsed value,
and a present explicit empty string clears the merged end date to
open-ended while leaving every other field (except the refreshed
update timestamp) unchanged. -/
theorem C3_update_end_date_three_states :
    (∀ (cur : Subscription) (req : apiModels.UpdateSubscriptionRequest)
        (now : Int) (r : Subscription),
      req.endDate = none →
      service.updateMerge cur req now = .ok r →
      r.endDate = cur.endDate) ∧
    (∀ (cur : Subscription) (req : apiModels.UpdateSubscriptionRequest)
        (now : Int) (r : Subscription) (s : Str) (d : GoTime),
      req.endDate = some s →
      dates.String2Date s = .ok d →
      service.updateMerge cur req now = .ok r →
      r.endDate = some d) ∧
    (∀ (cur : Subscription) (now : Int),
      service.updateMerge cur
        { serviceName := none, price := none, userID := none,
          startDate := none, endDate := some [] } now =
        .ok { cur with endDate := none, updatedAt := now }) := by
  refine ⟨?_, ?_, ?_⟩
  · intro cur req now r hn h
    obtain ⟨res, hp, hv, hopt, hr⟩ := updateMerge_ok_shape h
    obtain ⟨h1, _, _⟩ := parseDates_ok_components hp
    obtain ⟨he, hc⟩ := h1 hn
    rw [hr]
    dsimp only
    rw [he, hc]
    rfl
  · intro cur req now r s d hs hd h
    obtain ⟨res, hp, hv, hopt, hr⟩ := updateMerge_ok_shape h
    obtain ⟨_, _, h3⟩ := parseDates_ok_components hp
    obtain ⟨he, hc⟩ := h3 s d hs hd
    rw [hr]
    dsimp only
    rw [he, hc]
    rfl
  · intro cur now
    rfl

/-- Witness for C3: merging the single-field request with end date
"06-2024" into the §8 bounded record sets the merged end date to June
2024. -/
theorem C3_update_end_date_three_states_witness :
    service.updateMerge boundedYearSub
        { serviceName := none, price := none, userID := none,
          startDate := none, endDate := some ("06-2024".toList) } 5 =
      .ok { boundedYearSub with endDate := some jun2024, updatedAt := 5 } ∧
    ({ boundedYearSub with
        endDate := some jun2024, updatedAt := 5 } : Subscription).endDate =
      some jun2024 :=
  ⟨by rfl,
   C3_update_end_date_three_states.2.1 boundedYearSub
     { serviceName := none, price := none, userID := none,
       startDate := none, endDate := some ("06-2024".toList) } 5
     { boundedYearSub with endDate := some jun2024, updatedAt := 5 }
     ("06-2024".toList) jun2024 rfl (by rfl) (by rfl)⟩

/-- Witness for C4: creating from a valid request with start 01-2024 and
end 12-2024 yields a record with positive price and ordered dates. -/
theorem C4_persisted_record_invariants_witness :
    0 <
      (({ id := sampleID, serviceName := "Netflix".toList, price := 100,
          userID := sampleUserID, startDate := jan2024,
          endDate := some dec2024, createdAt := 7, updatedAt := 7,
          deleted := false } : Subscription)).price ∧
    ∀ e,
      (({ id := sampleID, serviceName := "Netflix".toList, price := 100,
          userID := sampleUserID, startDate := jan2024,
          endDate := some dec2024, createdAt := 7, updatedAt := 7,
          deleted := false } : Subscription)).endDate = some e →
      jan2024.monthIndex ≤ e.monthIndex :=
  C4_persisted_record_invariants.1
    { serviceName := "Netflix".toList, price := 100, userID := sampleUserID,
      startDate := "01-2024".toList, endDate := some ("12-2024".toList) }
    sampleID 7 _ (by rfl)

/-- C9: an update request whose end_date field consists solely of
whitespace is treated exactly like the explicit empty string: validation
passes, and the merge clears the end date to open-ended, leaving all other
fields (except the refreshed update timestamp) unchanged. -/
theorem C9_whitespace_end_date_clears (cur : Subscription) (now : Int)
    (s : Str) (hws : ∀ c ∈ s, isGoSpace c = true) :
    service.updateMerge cur
        { serviceName := none, price := none, userID := none,
          startDate := none, endDate := some s } now =
      .ok { cur with endDate := none, updatedAt := now } := by
  have ht : trimSpace s = [] := by
    have hd : s.dropWhile isGoSpace = [] :=
      List.dropWhile_eq_nil_iff.mpr (fun x hx => hws x hx)
    unfold trimSpace
    rw [hd]
    rfl
  unfold service.updateMerge
  have hval : apiModels.UpdateSubscriptionRequest.validate
      { serviceName := none, price := none, userID := none,
        startDate := none, endDate := some s } = none := by
    unfold apiModels.UpdateSubscriptionRequest.validate
    simp [ht]
  rw [hval]
  have hpd : apiModels.UpdateSubscriptionRequest.parseDates
      { serviceName := none, price := none, userID := none,
        startDate := none, endDate := some s } = .ok (none, none, true) := by
    unfold apiModels.UpdateSubscriptionRequest.parseDates
      apiModels.UpdateSubscriptionRequest.parseDates.parseDatesEnd
    dsimp only
    rw [if_pos ht]
  rw [hpd]
  rfl

/-- Witness for C9: the three-space end_date string clears the end date of
the §8 bounded record. -/
theorem C9_whitespace_end_date_clears_witness :
    service.updateMerge boundedYearSub
        { serviceName := none, price := none, userID := none,
          startDate := none, endDate := some ("   ".toList) } 9 =
      .ok { boundedYearSub with endDate := none, updatedAt := 9 } :=
  C9_whitespace_end_date_clears boundedYearSub 9 ("   ".toList) (by decide)

theorem no_live_after_delete (st : List Subscription) (id : Str) :
    ∀ r ∈ (storage.deleteSubscriptionByID st id).1,
      storage.liveWithID id r = false := by
  intro r hr
  unfold storage.deleteSubscriptionByID at hr
  obtain ⟨r0, hr0, rfl⟩ := List.mem_map.1 hr
  by_cases hl : storage.liveWithID id r0 = true
  · rw [if_pos hl]
    unfold storage.liveWithID
    simp
  · rw [if_neg hl]
    exact Bool.eq_false_iff.mpr hl

theorem map_ite_id_of_countP_zero {α : Type} (p : α → Bool) (f : α → α)
    (l : List α) (h : l.countP p = 0) :
    (l.map fun r => if p r then f r else r) = l := by
  induction l with
  | nil => rfl
  | cons a t ih =>
    rw [List.countP_cons] at h
    by_cases hp : p a = true
    · rw [if_pos hp] at h
      omega
    · rw [if_neg hp] at h
      rw [List.map_cons, if_neg hp, ih (by omega)]

/-- C8: delete has idempotent failure semantics — deleting an id with no
live record (nonexistent or already soft-deleted) yields `NotFound`, and
after a successful delete, deleting the same id again yields `NotFound`. -/
theorem C8_delete_idempotent_failure :
    (∀ (st : List Subscription) (idStr : Str),
      isValidUUID idStr = true →
      (∀ r ∈ st, r.id = idStr → r.deleted = true) →
      (service.deleteSubscriptionByID st idStr).2 = .error .notFound) ∧
    (∀ (st st2 : List Subscription) (idStr : Str),
      service.deleteSubscriptionByID st idStr = (st2, .ok ()) →
      (service.deleteSubscriptionByID st2 idStr).2 = .error .notFound) := by
  have key : ∀ (st : List Subscription) (idStr : Str),
      isValidUUID idStr = true →
      (∀ r ∈ st, storage.liveWithID idStr r = false) →
      (service.deleteSubscriptionByID st idStr).2 = .error .notFound := by
    intro st idStr hu hdead
    have hzero : st.countP (storage.liveWithID idStr) = 0 := by
      rw [List.countP_eq_zero]
      intro r hr
      rw [hdead r hr]
      exact Bool.false_ne_true
    unfold service.deleteSubscriptionByID storage.deleteSubscriptionByID
    rw [hu]
    simp only [Bool.not_true, Bool.false_eq_true, if_false]
    rw [hzero]
    simp
  constructor
  · intro st idStr hu hdead
    refine key st idStr hu (fun r hr => ?_)
    unfold storage.liveWithID
    by_cases hid : r.id = idStr
    · rw [hdead r hr hid]
      simp
    · simp [hid]
  · intro st st2 idStr h
    unfold service.deleteSubscriptionByID at h
    by_cases hu : isValidUUID idStr = true
    · rw [hu] at h
      simp only [Bool.not_true, Bool.false_eq_true, if_false] at h
      have hst2 : st2 = (storage.deleteSubscriptionByID st idStr).1 := by
        by_cases hc : (storage.deleteSubscriptionByID st idStr).2 = true
        · rw [if_pos hc] at h
          exact (Prod.mk.injEq _ _ _ _ ▸ h).1.symm
        · rw [if_neg hc] at h
          cases (Prod.mk.injEq _ _ _ _ ▸ h).2
      rw [hst2]
      exact key _ idStr hu (no_live_after_delete st idStr)
    · rw [Bool.eq_false_iff.mpr hu] at h
      simp only [Bool.not_false, if_true] at h
      cases (Prod.mk.injEq _ _ _ _ ▸ h).2

/-- Witness for C8: a two-step scenario over a one-record store — the
first delete of the record's id succeeds, the second returns `NotFound`;
deleting a fresh id over the emptied store also returns `NotFound`. -/
theorem C8_delete_idempotent_failure_witness :
    service.deleteSubscriptionByID [boundedYearSub] sampleID =
      ([{ boundedYearSub with deleted := true }], .ok ()) ∧
    (service.deleteSubscriptionByID [{ boundedYearSub with deleted := true }]
        sampleID).2 = .error .notFound :=
  ⟨by rfl,
   C8_delete_idempotent_failure.2 [boundedYearSub]
     [{ boundedYearSub with deleted := true }] sampleID (by rfl)⟩

/-- C10: `UpdateSubscriptionByID` is atomic on error — whenever it returns
an error (malformed id, invalid payload, bad dates, merged end before
merged start, or a not-found condition), the storage state it returns is
exactly the state it was given: the single storage write happens only
after every check has passed. -/
theorem C10_update_atomic_on_error (st : List Subscription) (idStr : Str)
    (req : apiModels.UpdateSubscriptionRequest) (now : Int)
    (st2 : List Subscription) (e : ServiceError)
    (h : service.updateSubscriptionByID st idStr req now = (st2, .error e)) :
    st2 = st := by
  unfold service.updateSubscriptionByID at h
  by_cases hu : isValidUUID idStr = true
  · rw [hu] at h
    simp only [Bool.not_true, Bool.false_eq_true, if_false] at h
    cases hv : req.validate with
    | some m =>
      rw [hv] at h
      exact (Prod.mk.injEq _ _ _ _ ▸ h).1.symm
    | none =>
      rw [hv] at h
      dsimp only at h
      cases hg : storage.getSubscriptionByID st idStr with
      | none =>
        rw [hg] at h
        exact (Prod.mk.injEq _ _ _ _ ▸ h).1.symm
      | some current =>
        rw [hg] at h
        dsimp only at h
        cases hm : service.updateMerge current req now with
        | error m =>
          rw [hm] at h
          exact (Prod.mk.injEq _ _ _ _ ▸ h).1.symm
        | ok merged =>
          rw [hm] at h
          dsimp only at h
          by_cases hc : (storage.updateSubscriptionByID st merged now).2 = true
          · rw [if_pos hc] at h
            cases (Prod.mk.injEq _ _ _ _ ▸ h).2
          · rw [if_neg hc] at h
            have h1 := (Prod.mk.injEq _ _ _ _ ▸ h).1
            have hzero : st.countP
                (fun r => storage.liveWithID merged.id r) = 0 := by
              unfold storage.updateSubscriptionByID at hc
              simp only [decide_eq_true_eq] at hc
              omega
            rw [← h1]
            unfold storage.updateSubscriptionByID
            exact map_ite_id_of_countP_zero _ _ st hzero
  · rw [Bool.eq_false_iff.mpr hu] at h
    simp only [Bool.not_false, if_true] at h
    exact (Prod.mk.injEq _ _ _ _ ▸ h).1.symm

/-- Witness for C10: updating a malformed id over a one-record store
returns a validation error and leaves the store unchanged. -/
theorem C10_update_atomic_on_error_witness :
    service.updateSubscriptionByID [boundedYearSub] ("nope".toList)
        { serviceName := none, price := none, userID := none,
          startDate := none, endDate := none } 3 =
      ([boundedYearSub],
        .error (.validation "invalid subscription UUID")) ∧
    ([boundedYearSub] : List Subscription) = [boundedYearSub] :=
  ⟨by rfl,
   C10_update_atomic_on_error [boundedYearSub] ("nope".toList)
     { serviceName := none, price := none, userID := none,
       startDate := none, endDate := none } 3 [boundedYearSub]
     (.validation "invalid subscription UUID") (by rfl)⟩

/-- A create request whose service name is three spaces but is otherwise
fully valid. -/
def whitespaceNameCreateReq : apiModels.CreateSubscriptionRequest :=
  { serviceName := "   ".toList, price := 299, userID := sampleUserID,
    startDate := "01-2024".toList, endDate := none }

/-- Counterexample to C6 as stated: `CreateSubscription` accepts a
whitespace-only service name — its validation compares the raw string
against the empty string without trimming — so the claim that every
whitespace-only service name is rejected at every entry point is false. -/
theorem C6_counterexample_create_accepts_whitespace_name :
    whitespaceNameCreateReq.validate = none ∧
    service.createSubscription whitespaceNameCreateReq sampleID 0 =
      .ok { id := sampleID, serviceName := "   ".toList, price := 299,
            userID := sampleUserID, startDate := jan2024, endDate := none,
            createdAt := 0, updatedAt := 0, deleted := false } :=
  ⟨by rfl, by rfl⟩

/-- C6 amended: `CreateSubscription` rejects the exactly-empty service
name with a `ValidationError` (whitespace-only names pass its
validation), and `UpdateSubscriptionByID` rejects every present service
name that is empty or whitespace-only with a `ValidationError`. -/
theorem C6_empty_service_name_rejected :
    (∀ (req : apiModels.CreateSubscriptionRequest) (newID : Str) (now : Int),
      req.serviceName = [] →
      service.createSubscription req newID now =
        .error (.validation "service name is required")) ∧
    (∀ (st : List Subscription) (idStr : Str)
        (req : apiModels.UpdateSubscriptionRequest) (now : Int) (s : Str),
      req.serviceName = some s → trimSpace s = [] →
      isValidationError
        (service.updateSubscriptionByID st idStr req now).2 = true) := by
  constructor
  · intro req newID now hname
    unfold service.createSubscription
      apiModels.CreateSubscriptionRequest.validate
    rw [if_pos hname]
  · intro st idStr req now s hname htrim
    have hval : req.validate = some "service name is required" := by
      unfold apiModels.UpdateSubscriptionRequest.validate
      rw [if_pos (by rw [hname]; simp [htrim])]
    unfold service.updateSubscriptionByID
    by_cases hu : isValidUUID idStr = true
    · rw [hu]
      simp only [Bool.not_true, Bool.false_eq_true, if_false]
      rw [hval]
      rfl
    · rw [Bool.eq_false_iff.mpr hu]
      simp only [Bool.not_false, if_true]
      rfl

/-- Witness for C6 amended: the empty create name and a three-space
update name are both rejected with a `ValidationError`. -/
theorem C6_empty_service_name_rejected_witness :
    service.createSubscription
        { serviceName := [], price := 299, userID := sampleUserID,
          startDate := "01-2024".toList, endDate := none } sampleID 0 =
      .error (.validation "service name is required") ∧
    isValidationError
      (service.updateSubscriptionByID [boundedYearSub] sampleID
        { serviceName := some ("   ".toList), price := none, userID := none,
          startDate := none, endDate := none } 4).2 = true :=
  ⟨C6_empty_service_name_rejected.1
     { serviceName := [], price := 299, userID := sampleUserID,
       startDate := "01-2024".toList, endDate := none } sampleID 0 rfl,
   C6_empty_service_name_rejected.2 [boundedYearSub] sampleID
     { serviceName := some ("   ".toList), price := none, userID := none,
       startDate := none, endDate := none } 4 ("   ".toList) rfl (by rfl)⟩

/-- Did the codec report an error? -/
def isParseError (r : Except String GoTime) : Bool :=
  match r with
  | .error _ => true
  | .ok _ => false

theorem digitChar_digitVal {c : Char} (h : c.isDigit = true) :
    digitChar (digitVal c) = c := by
  have hb : 48 ≤ c.toNat ∧ c.toNat ≤ 57 := by
    simp [Char.isDigit] at h
    exact h
  unfold digitChar digitVal
  rw [show 48 + (c.toNat - 48) = c.toNat by omega, Char.ofNat_toNat]

theorem digitVal_le {c : Char} (h : c.isDigit = true) : digitVal c ≤ 9 := by
  have hb : 48 ≤ c.toNat ∧ c.toNat ≤ 57 := by
    simp [Char.isDigit] at h
    exact h
  unfold digitVal
  omega

theorem timeParseLayout_some_shape {t : Str} {m y : Int}
    (h : dates.timeParseLayout t = some (m, y)) :
    ∃ a b c d e f, t = [a, b, '-', c, d, e, f] ∧
      a.isDigit = true ∧ b.isDigit = true ∧ c.isDigit = true ∧
      d.isDigit = true ∧ e.isDigit = true ∧ f.isDigit = true ∧
      m = ((10 * digitVal a + digitVal b : Nat) : Int) ∧
      y = ((1000 * digitVal c + 100 * digitVal d +
            10 * digitVal e + digitVal f : Nat) : Int) ∧
      1 ≤ m ∧ m ≤ 12 := by
  rcases t with _ | ⟨a, t⟩
  · cases h
  rcases t with _ | ⟨b, t⟩
  · cases h
  rcases t with _ | ⟨c3, ys⟩
  · unfold dates.timeParseLayout at h
    dsimp only at h
    split at h <;> cases h
  unfold dates.timeParseLayout at h
  dsimp only at h
  split at h
  case isFalse => cases h
  case isTrue hab =>
    split at h
    case isFalse => cases h
    case isTrue hc3 =>
      subst hc3
      rcases ys with _ | ⟨y1, ys⟩
      · cases h
      rcases ys with _ | ⟨y2, ys⟩
      · cases h
      rcases ys with _ | ⟨y3, ys⟩
      · cases h
      rcases ys with _ | ⟨y4, ys⟩
      · cases h
      rcases ys with _ | ⟨y5, ys⟩
      · dsimp only at h
        split at h
        case isFalse => cases h
        case isTrue hy =>
          split at h
          case isFalse => cases h
          case isTrue hr =>
            cases h
            simp only [Bool.and_eq_true] at hab hy
            refine ⟨a, b, y1, y2, y3, y4, rfl, hab.1, hab.2, hy.1.1.1,
              hy.1.1.2, hy.1.2, hy.2, rfl, rfl, hr.1, hr.2⟩
      · cases h

theorem String2Date_ok_shape {s : Str} {d : GoTime}
    (h : dates.String2Date s = .ok d) :
    trimSpace s ≠ [] ∧
    ∃ m y, dates.timeParseLayout (trimSpace s) = some (m, y) ∧
      d = goTimeDate y m 1 0 0 0 0 := by
  unfold dates.String2Date at h
  dsimp only at h
  split at h
  case isTrue => cases h
  case isFalse htrim =>
    cases hp : dates.timeParseLayout (trimSpace s) with
    | none => rw [hp] at h; cases h
    | some my =>
      obtain ⟨m, y⟩ := my
      rw [hp] at h
      dsimp only at h
      cases h
      exact ⟨htrim, m, y, rfl, rfl⟩

theorem timeParseLayout_of_pattern {t : Str}
    (h : specMMYYYYPattern t = true) :
    ∃ m y, dates.timeParseLayout t = some (m, y) := by
  rcases t with _ | ⟨a, t⟩
  · cases h
  rcases t with _ | ⟨b, t⟩
  · cases h
  rcases t with _ | ⟨c3, t⟩
  · cases h
  rcases t with _ | ⟨y1, t⟩
  · cases h
  rcases t with _ | ⟨y2, t⟩
  · cases h
  rcases t with _ | ⟨y3, t⟩
  · cases h
  rcases t with _ | ⟨y4, t⟩
  · cases h
  rcases t with _ | ⟨y5, t⟩
  case cons.cons.cons.cons.cons.cons.cons.cons => cases h
  unfold specMMYYYYPattern at h
  simp only [Bool.and_eq_true, decide_eq_true_eq] at h
  obtain ⟨⟨⟨⟨⟨⟨⟨ha, hb⟩, hc3⟩, hy1⟩, hy2⟩, hy3⟩, hy4⟩, hr⟩ := h
  refine ⟨((10 * digitVal a + digitVal b : Nat) : Int),
    ((1000 * digitVal y1 + 100 * digitVal y2 +
      10 * digitVal y3 + digitVal y4 : Nat) : Int), ?_⟩
  unfold dates.timeParseLayout
  dsimp only
  rw [if_pos (by rw [ha, hb]; rfl), if_pos hc3,
    if_pos (by rw [hy1, hy2, hy3, hy4]; rfl), if_pos (by omega)]

theorem pattern_of_timeParseLayout {t : Str} {m y : Int}
    (h : dates.timeParseLayout t = some (m, y)) :
    specMMYYYYPattern t = true := by
  obtain ⟨a, b, c, d, e, f, rfl, ha, hb, hc, hd, he, hf, hm, hy, h1, h2⟩ :=
    timeParseLayout_some_shape h
  unfold specMMYYYYPattern
  simp only [Bool.and_eq_true, decide_eq_true_eq]
  subst hm
  refine ⟨⟨⟨⟨⟨⟨⟨ha, hb⟩, trivial⟩, hc⟩, hd⟩, he⟩, hf⟩, by omega⟩

theorem pad2_digits {a b : Char} (ha : a.isDigit = true)
    (hb : b.isDigit = true) :
    dates.pad2 ((10 * digitVal a + digitVal b : Nat) : Int) = [a, b] := by
  have hva := digitVal_le ha
  have hvb := digitVal_le hb
  unfold dates.pad2
  rw [Int.toNat_ofNat]
  rw [show (10 * digitVal a + digitVal b) / 10 = digitVal a by omega]
  rw [show (10 * digitVal a + digitVal b) % 10 = digitVal b by omega]
  rw [digitChar_digitVal ha, digitChar_digitVal hb]

theorem pad4_digits {c d e f : Char} (hc : c.isDigit = true)
    (hd : d.isDigit = true) (he : e.isDigit = true) (hf : f.isDigit = true) :
    dates.pad4 ((1000 * digitVal c + 100 * digitVal d +
      10 * digitVal e + digitVal f : Nat) : Int) = [c, d, e, f] := by
  have hvc := digitVal_le hc
  have hvd := digitVal_le hd
  have hve := digitVal_le he
  have hvf := digitVal_le hf
  unfold dates.pad4
  rw [Int.toNat_ofNat]
  rw [show (1000 * digitVal c + 100 * digitVal d + 10 * digitVal e +
    digitVal f) / 1000 = digitVal c by omega]
  rw [show (1000 * digitVal c + 100 * digitVal d + 10 * digitVal e +
    digitVal f) / 100 % 10 = digitVal d by omega]
  rw [show (1000 * digitVal c + 100 * digitVal d + 10 * digitVal e +
    digitVal f) / 10 % 10 = digitVal e by omega]
  rw [show (1000 * digitVal c + 100 * digitVal d + 10 * digitVal e +
    digitVal f) % 10 = digitVal f by omega]
  rw [digitChar_digitVal hc, digitChar_digitVal hd,
    digitChar_digitVal he, digitChar_digitVal hf]

/-- C7: `String2Date` fails exactly when the input, after trimming
surrounding whitespace, is empty or does not match the two-digit-month /
hyphen / four-digit-year MM-YYYY pattern with month in 1–12 (so YYYY-MM
order, month 00, month 13+, and non-numeric input all fail); every
accepted value has day 1 and midnight-UTC time fields; and formatting an
accepted value with the MM-YYYY layout returns the trimmed input. -/
theorem C7_date_codec_contract :
    (∀ s : Str, isParseError (dates.String2Date s) = true ↔
      (trimSpace s = [] ∨ specMMYYYYPattern (trimSpace s) = false)) ∧
    (∀ (s : Str) (d : GoTime), dates.String2Date s = .ok d →
      d.day = 1 ∧ d.hour = 0 ∧ d.minute = 0 ∧ d.second = 0 ∧ d.nsec = 0) ∧
    (∀ (s : Str) (d : GoTime), dates.String2Date s = .ok d →
      dates.formatMMYYYY d = trimSpace s) := by
  refine ⟨?_, ?_, ?_⟩
  · intro s
    unfold dates.String2Date
    dsimp only
    by_cases htrim : trimSpace s = []
    · rw [if_pos htrim]
      simp [isParseError, htrim]
    · rw [if_neg htrim]
      cases hp : dates.timeParseLayout (trimSpace s) with
      | none =>
        simp only [isParseError]
        constructor
        · intro _
          right
          cases hpat : specMMYYYYPattern (trimSpace s)
          · rfl
          · obtain ⟨m, y, hsome⟩ := timeParseLayout_of_pattern hpat
            rw [hsome] at hp
            cases hp
        · intro _
          trivial
      | some my =>
        obtain ⟨m, y⟩ := my
        simp only [isParseError]
        constructor
        · intro hfalse
          cases hfalse
        · rintro (h1 | h2)
          · exact absurd h1 htrim
          · rw [pattern_of_timeParseLayout hp] at h2
            cases h2
  · intro s d h
    obtain ⟨_, m, y, _, rfl⟩ := String2Date_ok_shape h
    exact ⟨rfl, rfl, rfl, rfl, rfl⟩
  · intro s d h
    obtain ⟨_, m, y, hp, rfl⟩ := String2Date_ok_shape h
    obtain ⟨a, b, c, d2, e, f, heq, ha, hb, hc, hd, he, hf, hm, hy, _, _⟩ :=
      timeParseLayout_some_shape hp
    rw [heq]
    unfold dates.formatMMYYYY goTimeDate
    dsimp only
    subst hm
    subst hy
    rw [pad2_digits ha hb, pad4_digits hc hd he hf]
    rfl

/-- Witness for C7: the reversed string "2024-01" falls under the error
characterization, and parsing then formatting "  07-2023  " returns the
trimmed "07-2023". -/
theorem C7_date_codec_contract_witness :
    (isParseError (dates.String2Date ("2024-01".toList)) = true ↔
      (trimSpace ("2024-01".toList) = [] ∨
        specMMYYYYPattern (trimSpace ("2024-01".toList)) = false)) ∧
    dates.formatMMYYYY ⟨2023, 7, 1, 0, 0, 0, 0⟩ =
      trimSpace ("  07-2023  ".toList) :=
  ⟨C7_date_codec_contract.1 ("2024-01".toList),
   C7_date_codec_contract.2.2 ("  07-2023  ".toList)
     ⟨2023, 7, 1, 0, 0, 0, 0⟩ (by rfl)⟩
